import Mathlib

/-
Shallow embedding of the WebRTC signaling server in src/index.js.

The server keeps three in-memory JavaScript Maps:
  users       : userId -> stored user  (login bookkeeping)
  activeUsers : userId -> active user  (presence registry)
  calls       : callId -> call record  (call table)
JavaScript Maps are insertion-ordered; we model them as association
lists with the Map operations get / set / delete / has / values.
Socket.io handlers become pure functions from server state (plus the
per-socket fields socket.id, socket.userId, socket.username that the
handlers read and write) to a new state and a list of emitted messages.
-/

namespace WebRTCSignal

/-- Identity payload a client sends on join and inside call_user's from
field: an object with id and username. -/
structure User where
  id : String
  username : String
deriving DecidableEq, Repr

/-- Entry of the activeUsers map, built in the join handler as
spread of userData plus socketId, isOnline := true and lastSeen. -/
structure ActiveUser where
  id : String
  username : String
  socketId : String
  isOnline : Bool
  lastSeen : String
deriving DecidableEq, Repr

/-- Entry of the users map: created by POST /api/login as
an object with id, username, isOnline; disconnect later adds lastSeen
(absent until then, hence an Option). -/
structure StoredUser where
  id : String
  username : String
  isOnline : Bool
  lastSeen : Option String
deriving DecidableEq, Repr

/-- Entry of the calls map, built in the call_user handler: the raw
from payload, the snapshot of the target ActiveUser taken at call time,
the callType, a status string, and Date.now as startTime. -/
structure Call where
  id : String
  fromUser : User
  toUser : ActiveUser
  callType : String
  status : String
  startTime : Nat
deriving DecidableEq, Repr

/-- Map.get: first binding of the key, none when absent. -/
def mapGet {α : Type} : List (String × α) → String → Option α
  | [], _ => none
  | (k2, v) :: rest, k => if k2 = k then some v else mapGet rest k

/-- Map.set: update the existing binding in place (JavaScript Maps keep
the original insertion position on update), append when absent. -/
def mapSet {α : Type} : List (String × α) → String → α → List (String × α)
  | [], k, v => [(k, v)]
  | (k2, v2) :: rest, k, v =>
      if k2 = k then (k, v) :: rest else (k2, v2) :: mapSet rest k v

/-- Map.delete: drop the bindings of the key. -/
def mapDelete {α : Type} (m : List (String × α)) (k : String) : List (String × α) :=
  m.filter (fun p => p.1 != k)

/-- Map.has. -/
def mapHas {α : Type} (m : List (String × α)) (k : String) : Bool :=
  (mapGet m k).isSome

/-- Array.from of map.values, in insertion order. -/
def mapValues {α : Type} (m : List (String × α)) : List α :=
  m.map Prod.snd

/-- The whole in-memory server state: the three Maps. -/
structure ServerState where
  users : List (String × StoredUser)
  activeUsers : List (String × ActiveUser)
  calls : List (String × Call)
deriving DecidableEq, Repr

/-- Per-socket state the handlers use: socket.id, and the
socket.userId / socket.username fields assigned by the join handler
(undefined before any join, hence Options). -/
structure SocketCtx where
  sid : String
  userId : Option String
  username : Option String
deriving DecidableEq, Repr

/-- Where an emitted event goes: io.to(socketId).emit and socket.emit
address one socket; io.emit broadcasts to every connected client. -/
inductive Target where
  | toSocket (socketId : String)
  | broadcast
deriving DecidableEq, Repr

/-- The outbound events the server emits, with their payloads. -/
inductive OutEvent where
  | joinSuccess (message : String) (onlineUsers : List ActiveUser)
  | usersUpdated (onlineUsers : List ActiveUser)
  | incomingCall (callId : String) (fromUser : User) (callType : String) (offer : String)
  | callStatus (status : String) (callId : Option String)
  | callAccepted (callId : String) (answer : String)
  | callRejected (callId : String)
  | callEnded (callId : String)
deriving DecidableEq, Repr

/-- One emitted message: a target and an event. -/
structure Msg where
  target : Target
  event : OutEvent
deriving DecidableEq, Repr

/-- broadcastUserList: io.emit of users_updated with the current
activeUsers values. -/
def broadcastUserList (activeUsers : List (String × ActiveUser)) : Msg :=
  ⟨Target.broadcast, OutEvent.usersUpdated (mapValues activeUsers)⟩

/-- The join handler: insert the joining user into activeUsers (spread
of userData plus socketId, isOnline, lastSeen), record userId/username
on the socket, flip isOnline in the users map when present, broadcast
the user list, then send join_success to the joining socket. -/
def handleJoin (st : ServerState) (sock : SocketCtx) (userData : User) (now : String) :
    ServerState × SocketCtx × List Msg :=
  let user : ActiveUser :=
    { id := userData.id, username := userData.username, socketId := sock.sid,
      isOnline := true, lastSeen := now }
  let activeUsers2 := mapSet st.activeUsers userData.id user
  let sock2 : SocketCtx :=
    { sock with userId := some userData.id, username := some userData.username }
  let users2 :=
    match mapGet st.users userData.id with
    | some old => mapSet st.users userData.id { old with isOnline := true }
    | none => st.users
  ({ st with users := users2, activeUsers := activeUsers2 }, sock2,
    [broadcastUserList activeUsers2,
     ⟨Target.toSocket sock.sid,
      OutEvent.joinSuccess "Successfully connected to the server" (mapValues activeUsers2)⟩])

/-- The call_user handler: resolve the target in activeUsers; when
present create a ringing call under a fresh uuid (passed in as
newCallId; Date.now passed in as nowMs), send incoming_call to the
target's socket and a ringing call_status to the caller; when absent
send user_offline to the caller only. -/
def handleCallUser (st : ServerState) (sock : SocketCtx)
    (toUserId : String) (fromUser : User) (callType : String) (offer : String)
    (newCallId : String) (nowMs : Nat) : ServerState × List Msg :=
  match mapGet st.activeUsers toUserId with
  | some targetUser =>
      let call : Call :=
        { id := newCallId, fromUser := fromUser, toUser := targetUser,
          callType := callType, status := "ringing", startTime := nowMs }
      ({ st with calls := mapSet st.calls newCallId call },
       [⟨Target.toSocket targetUser.socketId,
         OutEvent.incomingCall newCallId fromUser callType offer⟩,
        ⟨Target.toSocket sock.sid, OutEvent.callStatus "ringing" (some newCallId)⟩])
  | none =>
      (st, [⟨Target.toSocket sock.sid, OutEvent.callStatus "user_offline" none⟩])

/-- The accept_call handler: when the call exists set its status to
connected and, when the caller is in activeUsers, send call_accepted
to the caller's socket; when the call is absent do nothing. -/
def handleAcceptCall (st : ServerState) (callId answer : String) :
    ServerState × List Msg :=
  match mapGet st.calls callId with
  | some call =>
      let calls2 := mapSet st.calls callId { call with status := "connected" }
      let msgs :=
        match mapGet st.activeUsers call.fromUser.id with
        | some callerUser =>
            [⟨Target.toSocket callerUser.socketId, OutEvent.callAccepted callId answer⟩]
        | none => []
      ({ st with calls := calls2 }, msgs)
  | none => (st, [])

/-- The reject_call handler: when the call exists send call_rejected to
the caller's socket (when the caller is in activeUsers) and delete the
call; when the call is absent do nothing. -/
def handleRejectCall (st : ServerState) (callId : String) :
    ServerState × List Msg :=
  match mapGet st.calls callId with
  | some call =>
      let msgs :=
        match mapGet st.activeUsers call.fromUser.id with
        | some callerUser =>
            [⟨Target.toSocket callerUser.socketId, OutEvent.callRejected callId⟩]
        | none => []
      ({ st with calls := mapDelete st.calls callId }, msgs)
  | none => (st, [])

/-- The end_call handler: when the call exists pick the other user id
by comparing the record's caller id with socket.userId, send call_ended
to that user's socket when online, and delete the call; when the call
is absent do nothing. -/
def handleEndCall (st : ServerState) (sock : SocketCtx) (callId : String) :
    ServerState × List Msg :=
  match mapGet st.calls callId with
  | some call =>
      let otherUserId :=
        if some call.fromUser.id = sock.userId then call.toUser.id else call.fromUser.id
      let msgs :=
        match mapGet st.activeUsers otherUserId with
        | some otherUser =>
            [⟨Target.toSocket otherUser.socketId, OutEvent.callEnded callId⟩]
        | none => []
      ({ st with calls := mapDelete st.calls callId }, msgs)
  | none => (st, [])

/-- Test of the disconnect handler's call cleanup loop:
call.from.id === socket.userId or call.to.id === socket.userId. -/
def isParticipant (uid : String) (c : Call) : Bool :=
  c.fromUser.id == uid || c.toUser.id == uid

/-- The other user id picked inside the disconnect cleanup loop. -/
def otherParticipant (uid : String) (c : Call) : String :=
  if c.fromUser.id == uid then c.toUser.id else c.fromUser.id

/-- The call_ended message a single calls entry produces during the
disconnect cleanup loop (none when the entry does not involve the
departing user or the surviving peer is offline); activeUsers here is
the map after the departing user was already deleted. -/
def disconnectMsgFor (activeUsers : List (String × ActiveUser)) (uid : String)
    (p : String × Call) : Option Msg :=
  if isParticipant uid p.2 then
    match mapGet activeUsers (otherParticipant uid p.2) with
    | some otherUser => some ⟨Target.toSocket otherUser.socketId, OutEvent.callEnded p.1⟩
    | none => none
  else none

/-- The disconnect handler's loop over calls.entries: every call
involving the departing user is deleted and, when its surviving peer
is still in activeUsers, a call_ended is emitted to that peer. -/
def disconnectCallsLoop (activeUsers : List (String × ActiveUser)) (uid : String) :
    List (String × Call) → List (String × Call) × List Msg
  | [] => ([], [])
  | (callId, call) :: rest =>
      let r := disconnectCallsLoop activeUsers uid rest
      if isParticipant uid call then
        let msgs1 :=
          match mapGet activeUsers (otherParticipant uid call) with
          | some otherUser =>
              [⟨Target.toSocket otherUser.socketId, OutEvent.callEnded callId⟩]
          | none => []
        (r.1, msgs1 ++ r.2)
      else
        ((callId, call) :: r.1, r.2)

/-- The disconnect handler: nothing happens when socket.userId is unset
(or empty, which JavaScript treats as falsy); otherwise delete the user
from activeUsers, mark the users entry offline, run the call cleanup
loop against the already-updated activeUsers, and finally broadcast the
updated user list. -/
def handleDisconnect (st : ServerState) (sock : SocketCtx) (now : String) :
    ServerState × List Msg :=
  match sock.userId with
  | none => (st, [])
  | some uid =>
      if uid = "" then (st, [])
      else
        let activeUsers2 := mapDelete st.activeUsers uid
        let users2 :=
          match mapGet st.users uid with
          | some old => mapSet st.users uid { old with isOnline := false, lastSeen := some now }
          | none => st.users
        let r := disconnectCallsLoop activeUsers2 uid st.calls
        ({ users := users2, activeUsers := activeUsers2, calls := r.1 },
         r.2 ++ [broadcastUserList activeUsers2])

/-- Result of POST /api/login: a 400 error or a 200 body carrying the
user object and the token (which the code sets to user.id). -/
inductive LoginResult where
  | err400 (error : String)
  | ok (user : StoredUser) (token : String)
deriving DecidableEq, Repr

/-- The login handler's scan of users.entries for a stored user with
the requested username (first match in insertion order). -/
def findUserByUsername : List (String × StoredUser) → String → Option StoredUser
  | [], _ => none
  | (_, u) :: rest, username =>
      if u.username = username then some u else findUserByUsername rest username

/-- POST /api/login: reject with 400 when username or password is falsy
(empty models a missing or empty field); otherwise reuse the stored
user with that username (isOnline reset to false) or mint a new user
under a fresh uuid (passed in as freshId), store it, and answer with
the user and its id as token. No password is ever compared. -/
def handleLogin (st : ServerState) (username password : String) (freshId : String) :
    ServerState × LoginResult :=
  if username = "" ∨ password = "" then
    (st, LoginResult.err400 "Username and password required")
  else
    match findUserByUsername st.users username with
    | some existingUser =>
        let user : StoredUser := { existingUser with isOnline := false }
        ({ st with users := mapSet st.users existingUser.id user },
         LoginResult.ok user user.id)
    | none =>
        let user : StoredUser :=
          { id := freshId, username := username, isOnline := false, lastSeen := none }
        ({ st with users := mapSet st.users freshId user },
         LoginResult.ok user user.id)

/-! Map lemmas. -/

/-- Deleting a key makes its lookup fail. -/
theorem mapGet_mapDelete_self {α : Type} (m : List (String × α)) (k : String) :
    mapGet (mapDelete m k) k = none := by
  induction m with
  | nil => rfl
  | cons p rest ih =>
      by_cases h : p.1 = k
      · simpa [mapDelete, List.filter_cons, h] using ih
      · simpa [mapDelete, List.filter_cons, mapGet, h] using ih

/-- Deleting one key leaves other lookups unchanged. -/
theorem mapGet_mapDelete_ne {α : Type} (m : List (String × α)) (k k2 : String)
    (h : k2 ≠ k) : mapGet (mapDelete m k) k2 = mapGet m k2 := by
  have hne : ¬ k = k2 := fun hc => h hc.symm
  induction m with
  | nil => rfl
  | cons p rest ih =>
      obtain ⟨k3, v3⟩ := p
      by_cases hp : k3 = k
      · subst hp
        simpa [mapDelete, List.filter_cons, mapGet, hne] using ih
      · by_cases hq : k3 = k2
        · subst hq
          simp [mapDelete, List.filter_cons, mapGet, hp]
        · simpa [mapDelete, List.filter_cons, mapGet, hp, hq] using ih

/-- Setting a key makes its lookup return the new value. -/
theorem mapGet_mapSet_self {α : Type} (m : List (String × α)) (k : String) (v : α) :
    mapGet (mapSet m k v) k = some v := by
  induction m with
  | nil => simp [mapSet, mapGet]
  | cons p rest ih =>
      obtain ⟨k2, v2⟩ := p
      by_cases h : k2 = k
      · simp [mapSet, mapGet, h]
      · simp [mapSet, mapGet, h, ih]

/-- Setting one key leaves other lookups unchanged. -/
theorem mapGet_mapSet_ne {α : Type} (m : List (String × α)) (k k2 : String) (v : α)
    (h : k2 ≠ k) : mapGet (mapSet m k v) k2 = mapGet m k2 := by
  have hne : ¬ k = k2 := fun hc => h hc.symm
  induction m with
  | nil => simp [mapSet, mapGet, hne]
  | cons p rest ih =>
      obtain ⟨k3, v3⟩ := p
      by_cases hp : k3 = k
      · subst hp
        simp [mapSet, mapGet, hne]
      · by_cases hq : k3 = k2
        · subst hq
          simp [mapSet, mapGet, hp]
        · simp [mapSet, mapGet, hp, hq, ih]

/-- A key absent from the key list has no binding. -/
theorem mapGet_eq_none_of_not_mem {α : Type} (m : List (String × α)) (k : String)
    (h : k ∉ m.map Prod.fst) : mapGet m k = none := by
  induction m with
  | nil => rfl
  | cons p rest ih =>
      simp only [List.map_cons, List.mem_cons, not_or] at h
      have h1 : ¬ p.1 = k := fun hc => h.1 hc.symm
      simp [mapGet, h1, ih h.2]

/-- Keys of mapSet: the old keys plus the written key. -/
theorem mem_keys_mapSet {α : Type} (m : List (String × α)) (k a : String) (v : α) :
    a ∈ (mapSet m k v).map Prod.fst ↔ a ∈ m.map Prod.fst ∨ a = k := by
  induction m with
  | nil => simp [mapSet]
  | cons p rest ih =>
      obtain ⟨k2, v2⟩ := p
      by_cases h : k2 = k
      · subst h
        simp [mapSet]
        tauto
      · simp [mapSet, h, ih]
        tauto

/-- mapSet keeps the key list duplicate-free. -/
theorem nodup_keys_mapSet {α : Type} (m : List (String × α)) (k : String) (v : α)
    (h : (m.map Prod.fst).Nodup) : ((mapSet m k v).map Prod.fst).Nodup := by
  induction m with
  | nil => simp [mapSet]
  | cons p rest ih =>
      obtain ⟨k2, v2⟩ := p
      simp only [List.map_cons, List.nodup_cons] at h
      by_cases hk : k2 = k
      · subst hk
        simpa [mapSet] using h
      · have hset : mapSet ((k2, v2) :: rest) k v = (k2, v2) :: mapSet rest k v := by
          simp [mapSet, hk]
        rw [hset, List.map_cons, List.nodup_cons]
        refine ⟨?_, ih h.2⟩
        intro hmem
        rcases (mem_keys_mapSet rest k k2 v).1 hmem with hin | heq
        · exact h.1 hin
        · exact hk heq

/-- mapSet on a present key replaces in place: the map does not grow. -/
theorem length_mapSet_of_isSome {α : Type} (m : List (String × α)) (k : String) (v : α)
    (h : (mapGet m k).isSome) : (mapSet m k v).length = m.length := by
  induction m with
  | nil => simp [mapGet] at h
  | cons p rest ih =>
      obtain ⟨k2, v2⟩ := p
      by_cases hk : k2 = k
      · simp [mapSet, hk]
      · simp only [mapGet, hk, if_false] at h
        simp [mapSet, hk, ih h]

/-- Lookup of an absent key stays absent after a filter. -/
theorem mapGet_filter_of_none {α : Type} (m : List (String × α)) (q : String × α → Bool)
    (k : String) (h : mapGet m k = none) : mapGet (m.filter q) k = none := by
  induction m with
  | nil => rfl
  | cons p rest ih =>
      by_cases hp : p.1 = k
      · simp [mapGet, hp] at h
      · simp only [mapGet, hp, if_false] at h
        by_cases hq : q p
        · simpa [List.filter_cons, hq, mapGet, hp] using ih h
        · simpa [List.filter_cons, hq] using ih h

/-- With duplicate-free keys, filtering out the one binding of a key
makes its lookup fail. -/
theorem mapGet_filter_eq_none {α : Type} (m : List (String × α)) (q : String × α → Bool)
    (k : String) (c : α) (hnd : (m.map Prod.fst).Nodup)
    (hg : mapGet m k = some c) (hq : q (k, c) = false) :
    mapGet (m.filter q) k = none := by
  induction m with
  | nil => simp [mapGet] at hg
  | cons p rest ih =>
      obtain ⟨k2, v2⟩ := p
      simp only [List.map_cons, List.nodup_cons] at hnd
      by_cases hp : k2 = k
      · subst hp
        have hv : v2 = c := by simpa [mapGet] using hg
        have hq2 : q (k2, v2) = false := by rw [hv]; exact hq
        have hrest : mapGet rest k2 = none :=
          mapGet_eq_none_of_not_mem rest k2 hnd.1
        simpa [List.filter_cons, hq2] using mapGet_filter_of_none rest q k2 hrest
      · simp only [mapGet, hp, if_false] at hg
        by_cases hqp : q (k2, v2)
        · simpa [List.filter_cons, hqp, mapGet, hp] using ih hnd.2 hg
        · simpa [List.filter_cons, hqp] using ih hnd.2 hg

/-- The disconnect cleanup loop, characterised: it keeps exactly the
calls not involving the departing user, and emits, in table order, the
message disconnectMsgFor yields for each entry. -/
theorem disconnectCallsLoop_eq (au : List (String × ActiveUser)) (uid : String)
    (cs : List (String × Call)) :
    disconnectCallsLoop au uid cs =
      (cs.filter (fun p => !(isParticipant uid p.2)),
       cs.filterMap (disconnectMsgFor au uid)) := by
  induction cs with
  | nil => rfl
  | cons p rest ih =>
      obtain ⟨cid, c⟩ := p
      by_cases h : isParticipant uid c = true
      · cases ho : mapGet au (otherParticipant uid c) with
        | some otherUser =>
            simp [disconnectCallsLoop, disconnectMsgFor, List.filter_cons,
              List.filterMap_cons, h, ho, ih]
        | none =>
            simp [disconnectCallsLoop, disconnectMsgFor, List.filter_cons,
              List.filterMap_cons, h, ho, ih]
      · simp [disconnectCallsLoop, disconnectMsgFor, List.filter_cons,
          List.filterMap_cons, h, ih]

/-- Bool test for a call_ended message carrying the given call id. -/
def isCallEndedFor (callId : String) (m : Msg) : Bool :=
  match m.event with
  | OutEvent.callEnded cid => cid == callId
  | _ => false

/-- No cleanup message mentions a call id absent from the table. -/
theorem countP_disconnectMsgs_zero (au : List (String × ActiveUser)) (uid callId : String)
    (cs : List (String × Call)) (h : callId ∉ cs.map Prod.fst) :
    (cs.filterMap (disconnectMsgFor au uid)).countP (isCallEndedFor callId) = 0 := by
  induction cs with
  | nil => rfl
  | cons p rest ih =>
      obtain ⟨cid, c⟩ := p
      simp only [List.map_cons, List.mem_cons, not_or] at h
      have hne : ¬ cid = callId := fun hc => h.1 hc.symm
      have hrest := ih h.2
      by_cases hp : isParticipant uid c = true
      · cases ho : mapGet au (otherParticipant uid c) with
        | some otherUser =>
            simp [disconnectMsgFor, List.filterMap_cons, hp, ho, List.countP_cons,
              isCallEndedFor, hne, hrest]
        | none =>
            simp [disconnectMsgFor, List.filterMap_cons, hp, ho, hrest]
      · simp [disconnectMsgFor, List.filterMap_cons, hp, hrest]

/-- With duplicate-free call ids, the cleanup loop emits exactly one
call_ended for each departing-user call whose peer is still online. -/
theorem countP_disconnectMsgs_one (au : List (String × ActiveUser)) (uid callId : String)
    (c : Call) (cs : List (String × Call))
    (hnd : (cs.map Prod.fst).Nodup) (hg : mapGet cs callId = some c)
    (hp : isParticipant uid c = true)
    (ho : (mapGet au (otherParticipant uid c)).isSome) :
    (cs.filterMap (disconnectMsgFor au uid)).countP (isCallEndedFor callId) = 1 := by
  induction cs with
  | nil => simp [mapGet] at hg
  | cons q rest ih =>
      obtain ⟨cid, c2⟩ := q
      simp only [List.map_cons, List.nodup_cons] at hnd
      by_cases hk : cid = callId
      · subst hk
        have hc : c2 = c := by simpa [mapGet] using hg
        have hp2 : isParticipant uid c2 = true := by rw [hc]; exact hp
        have ho2 : (mapGet au (otherParticipant uid c2)).isSome := by rw [hc]; exact ho
        cases hou : mapGet au (otherParticipant uid c2) with
        | none => rw [hou] at ho2; simp at ho2
        | some otherUser =>
            have hzero := countP_disconnectMsgs_zero au uid cid rest hnd.1
            simp [disconnectMsgFor, List.filterMap_cons, hp2, hou, List.countP_cons,
              isCallEndedFor, hzero]
      · have hg2 : mapGet rest callId = some c := by simpa [mapGet, hk] using hg
        have hone := ih hnd.2 hg2
        by_cases hp2 : isParticipant uid c2 = true
        · cases hou : mapGet au (otherParticipant uid c2) with
          | none => simp [disconnectMsgFor, List.filterMap_cons, hp2, hou, hone]
          | some otherUser =>
              simp [disconnectMsgFor, List.filterMap_cons, hp2, hou, List.countP_cons,
                isCallEndedFor, hk, hone]
        · simp [disconnectMsgFor, List.filterMap_cons, hp2, hone]

/-! Concrete sample data for the witnesses. -/

/-- Sample user a. -/
def wUserA : User := { id := "ua", username := "alice" }

/-- Sample user b. -/
def wUserB : User := { id := "ub", username := "bob" }

/-- Sample presence entry for user a on socket sa. -/
def wActiveA : ActiveUser :=
  { id := "ua", username := "alice", socketId := "sa", isOnline := true, lastSeen := "t0" }

/-- Sample presence entry for user b on socket sb. -/
def wActiveB : ActiveUser :=
  { id := "ub", username := "bob", socketId := "sb", isOnline := true, lastSeen := "t0" }

/-- Sample ringing call from a to b. -/
def wCall : Call :=
  { id := "c1", fromUser := wUserA, toUser := wActiveB, callType := "video",
    status := "ringing", startTime := 5 }

/-- Sample server state: a and b online, one ringing call between them. -/
def wState : ServerState :=
  { users := [], activeUsers := [("ua", wActiveA), ("ub", wActiveB)],
    calls := [("c1", wCall)] }

/-- Socket of user a after joining. -/
def wSockA : SocketCtx := { sid := "sa", userId := some "ua", username := some "alice" }

/-- Socket of user b after joining. -/
def wSockB : SocketCtx := { sid := "sb", userId := some "ub", username := some "bob" }

/-- Socket of a third user c after joining. -/
def wSockC : SocketCtx := { sid := "sc", userId := some "uc", username := some "carol" }

/-! Claim theorems. -/

/-- Claim C1: every call record present in the table is removed when
its terminal event is processed: a successful reject_call deletes it, a
successful end_call deletes it, and a disconnect of a joined socket
whose user id is the record's caller or callee deletes it. -/
theorem C1_terminal_event_removes_record (st : ServerState) (sock : SocketCtx)
    (callId : String) (c : Call) (now uid : String)
    (hc : mapGet st.calls callId = some c)
    (hnd : (st.calls.map Prod.fst).Nodup) :
    mapGet (handleRejectCall st callId).1.calls callId = none ∧
    mapGet (handleEndCall st sock callId).1.calls callId = none ∧
    (sock.userId = some uid → uid ≠ "" →
      c.fromUser.id = uid ∨ c.toUser.id = uid →
      mapGet (handleDisconnect st sock now).1.calls callId = none) := by
  refine ⟨?_, ?_, ?_⟩
  · simp [handleRejectCall, hc, mapGet_mapDelete_self]
  · simp [handleEndCall, hc, mapGet_mapDelete_self]
  · intro hj hne hpart
    have hpartb : isParticipant uid c = true := by
      rcases hpart with h1 | h1 <;> simp [isParticipant, h1]
    have hfil := mapGet_filter_eq_none st.calls (fun p => !(isParticipant uid p.2))
      callId c hnd hc (by simp [hpartb])
    simpa [handleDisconnect, hj, hne, disconnectCallsLoop_eq] using hfil

/-- Claim C1 witness: all three hypotheses and conclusions at the
sample state. -/
theorem C1_witness :
    mapGet (handleRejectCall wState "c1").1.calls "c1" = none ∧
    mapGet (handleEndCall wState wSockA "c1").1.calls "c1" = none ∧
    mapGet (handleDisconnect wState wSockA "t9").1.calls "c1" = none := by
  have h := C1_terminal_event_removes_record wState wSockA "c1" wCall "t9" "ua"
    (by decide) (by decide)
  exact ⟨h.1, h.2.1, h.2.2 rfl (by decide) (Or.inl (by decide))⟩

/-- Claim C2: call_user creates a call record iff the callee resolves
in activeUsers at request time: when present, a ringing record appears
under the fresh callId, the callee's socket receives incoming_call and
the caller receives a ringing call_status carrying the same callId;
when absent the call table is untouched and the caller alone receives
user_offline. -/
theorem C2_call_created_iff_callee_online (st : ServerState) (sock : SocketCtx)
    (toUserId : String) (fromUser : User) (callType offer newCallId : String) (nowMs : Nat) :
    (∀ t, mapGet st.activeUsers toUserId = some t →
      (handleCallUser st sock toUserId fromUser callType offer newCallId nowMs).1.calls =
        mapSet st.calls newCallId
          { id := newCallId, fromUser := fromUser, toUser := t, callType := callType,
            status := "ringing", startTime := nowMs } ∧
      mapGet (handleCallUser st sock toUserId fromUser callType offer newCallId nowMs).1.calls
          newCallId =
        some { id := newCallId, fromUser := fromUser, toUser := t, callType := callType,
               status := "ringing", startTime := nowMs } ∧
      (handleCallUser st sock toUserId fromUser callType offer newCallId nowMs).2 =
        [⟨Target.toSocket t.socketId, OutEvent.incomingCall newCallId fromUser callType offer⟩,
         ⟨Target.toSocket sock.sid, OutEvent.callStatus "ringing" (some newCallId)⟩]) ∧
    (mapGet st.activeUsers toUserId = none →
      handleCallUser st sock toUserId fromUser callType offer newCallId nowMs =
        (st, [⟨Target.toSocket sock.sid, OutEvent.callStatus "user_offline" none⟩])) := by
  constructor
  · intro t ht
    refine ⟨?_, ?_, ?_⟩ <;> simp [handleCallUser, ht, mapGet_mapSet_self]
  · intro h0
    simp [handleCallUser, h0]

/-- Claim C2 witness: online callee and offline callee at the sample
state. -/
theorem C2_witness :
    mapGet (handleCallUser wState wSockA "ub" wUserA "video" "off1" "c9" 7).1.calls "c9" =
      some { id := "c9", fromUser := wUserA, toUser := wActiveB, callType := "video",
             status := "ringing", startTime := 7 } ∧
    handleCallUser wState wSockA "ux" wUserA "video" "off1" "c9" 7 =
      (wState, [⟨Target.toSocket wSockA.sid, OutEvent.callStatus "user_offline" none⟩]) := by
  refine ⟨((C2_call_created_iff_callee_online wState wSockA "ub" wUserA "video" "off1"
    "c9" 7).1 wActiveB (by decide)).2.1, ?_⟩
  exact (C2_call_created_iff_callee_online wState wSockA "ux" wUserA "video" "off1"
    "c9" 7).2 (by decide)

/-- Claim C5: join keeps presence unique: the activeUsers key list
stays duplicate-free, the joining user's entry points at the joining
socket afterwards, and a rejoin for an id already present replaces the
entry without growing the map. -/
theorem C5_presence_unique (st : ServerState) (sock : SocketCtx) (userData : User)
    (now : String) (hnd : (st.activeUsers.map Prod.fst).Nodup) :
    (((handleJoin st sock userData now).1.activeUsers.map Prod.fst).Nodup) ∧
    mapGet (handleJoin st sock userData now).1.activeUsers userData.id =
      some { id := userData.id, username := userData.username, socketId := sock.sid,
             isOnline := true, lastSeen := now } ∧
    ((mapGet st.activeUsers userData.id).isSome →
      (handleJoin st sock userData now).1.activeUsers.length = st.activeUsers.length) := by
  refine ⟨?_, ?_, ?_⟩
  · simpa [handleJoin] using nodup_keys_mapSet st.activeUsers userData.id _ hnd
  · simp [handleJoin, mapGet_mapSet_self]
  · intro hs
    simpa [handleJoin] using length_mapSet_of_isSome st.activeUsers userData.id _ hs

/-- Claim C5 witness: user b rejoins on its socket at the sample
state. -/
theorem C5_witness :
    (((handleJoin wState wSockB wUserB "t5").1.activeUsers.map Prod.fst).Nodup) ∧
    mapGet (handleJoin wState wSockB wUserB "t5").1.activeUsers wUserB.id =
      some { id := wUserB.id, username := wUserB.username, socketId := wSockB.sid,
             isOnline := true, lastSeen := "t5" } ∧
    (handleJoin wState wSockB wUserB "t5").1.activeUsers.length =
      wState.activeUsers.length := by
  have h := C5_presence_unique wState wSockB wUserB "t5" (by decide)
  exact ⟨h.1, h.2.1, h.2.2 (by decide)⟩

/-- After a reject_call has been processed for a callId, that callId is
gone from the call table. -/
theorem mapGet_calls_after_reject (st : ServerState) (callId : String) :
    mapGet (handleRejectCall st callId).1.calls callId = none := by
  cases hc : mapGet st.calls callId with
  | none => simp [handleRejectCall, hc]
  | some c => simp [handleRejectCall, hc, mapGet_mapDelete_self]

/-- After an end_call has been processed for a callId, that callId is
gone from the call table. -/
theorem mapGet_calls_after_end (st : ServerState) (sock : SocketCtx) (callId : String) :
    mapGet (handleEndCall st sock callId).1.calls callId = none := by
  cases hc : mapGet st.calls callId with
  | none => simp [handleEndCall, hc]
  | some c => simp [handleEndCall, hc, mapGet_mapDelete_self]

/-- reject_call against an absent callId changes nothing and emits
nothing. -/
theorem handleRejectCall_of_none (st : ServerState) (callId : String)
    (h : mapGet st.calls callId = none) : handleRejectCall st callId = (st, []) := by
  simp [handleRejectCall, h]

/-- end_call against an absent callId changes nothing and emits
nothing. -/
theorem handleEndCall_of_none (st : ServerState) (sock : SocketCtx) (callId : String)
    (h : mapGet st.calls callId = none) : handleEndCall st sock callId = (st, []) := by
  simp [handleEndCall, h]

/-- Claim C7: redundant termination is idempotent: once reject_call or
end_call has been processed for a callId, processing either of them
again for the same callId leaves the state unchanged and emits nothing
(no error event exists in the protocol, so nothing is surfaced). -/
theorem C7_redundant_termination_idempotent (st : ServerState) (sock sock2 : SocketCtx)
    (callId : String) :
    handleRejectCall (handleRejectCall st callId).1 callId =
      ((handleRejectCall st callId).1, []) ∧
    handleEndCall (handleEndCall st sock callId).1 sock2 callId =
      ((handleEndCall st sock callId).1, []) ∧
    handleEndCall (handleRejectCall st callId).1 sock2 callId =
      ((handleRejectCall st callId).1, []) ∧
    handleRejectCall (handleEndCall st sock callId).1 callId =
      ((handleEndCall st sock callId).1, []) :=
  ⟨handleRejectCall_of_none _ _ (mapGet_calls_after_reject st callId),
   handleEndCall_of_none _ _ _ (mapGet_calls_after_end st sock callId),
   handleEndCall_of_none _ _ _ (mapGet_calls_after_reject st callId),
   handleRejectCall_of_none _ _ (mapGet_calls_after_end st sock callId)⟩

/-- Claim C9: end_call never checks that the sender participates: a
joined sender whose user id is neither the record's caller nor its
callee still deletes the record, and the call_ended notification goes
to the record's caller (who is online). -/
theorem C9_end_call_no_participant_check (st : ServerState) (sock : SocketCtx)
    (uid callId : String) (c : Call) (callerEntry : ActiveUser)
    (hj : sock.userId = some uid)
    (hg : mapGet st.calls callId = some c)
    (hnf : uid ≠ c.fromUser.id) (_hnt : uid ≠ c.toUser.id)
    (hcaller : mapGet st.activeUsers c.fromUser.id = some callerEntry) :
    (handleEndCall st sock callId).1.calls = mapDelete st.calls callId ∧
    mapGet (handleEndCall st sock callId).1.calls callId = none ∧
    (handleEndCall st sock callId).2 =
      [⟨Target.toSocket callerEntry.socketId, OutEvent.callEnded callId⟩] := by
  have hcond : ¬ (some c.fromUser.id = sock.userId) := by
    rw [hj]
    intro hcon
    injection hcon with h2
    exact hnf h2.symm
  refine ⟨?_, ?_, ?_⟩ <;>
    simp [handleEndCall, hg, hcond, hcaller, mapGet_mapDelete_self]

/-- Claim C9 witness: the third user's socket ends the a-to-b call at
the sample state; the record goes away and a is notified. -/
theorem C9_witness :
    (handleEndCall wState wSockC "c1").1.calls = mapDelete wState.calls "c1" ∧
    mapGet (handleEndCall wState wSockC "c1").1.calls "c1" = none ∧
    (handleEndCall wState wSockC "c1").2 =
      [⟨Target.toSocket wActiveA.socketId, OutEvent.callEnded "c1"⟩] :=
  C9_end_call_no_participant_check wState wSockC "uc" "c1" wCall wActiveA rfl
    (by decide) (by decide) (by decide) (by decide)

/-- Sample state whose only call's caller has gone offline. -/
def wStateCallerOffline : ServerState :=
  { users := [], activeUsers := [("ub", wActiveB)], calls := [("c1", wCall)] }

/-- Claim C10: accept_call for a call whose caller no longer resolves
in activeUsers still flips the record to connected, keeps it in the
table, and emits nothing to anybody. -/
theorem C10_accept_with_offline_caller (st : ServerState) (callId answer : String) (c : Call)
    (hg : mapGet st.calls callId = some c)
    (hoff : mapGet st.activeUsers c.fromUser.id = none) :
    handleAcceptCall st callId answer =
      ({ st with calls := mapSet st.calls callId { c with status := "connected" } }, []) ∧
    mapGet (handleAcceptCall st callId answer).1.calls callId =
      some { c with status := "connected" } := by
  constructor <;> simp [handleAcceptCall, hg, hoff, mapGet_mapSet_self]

/-- Claim C10 witness: accepting the a-to-b call after a went
offline. -/
theorem C10_witness :
    handleAcceptCall wStateCallerOffline "c1" "ans" =
      ({ wStateCallerOffline with
          calls := mapSet wStateCallerOffline.calls "c1" { wCall with status := "connected" } },
       []) ∧
    mapGet (handleAcceptCall wStateCallerOffline "c1" "ans").1.calls "c1" =
      some { wCall with status := "connected" } :=
  C10_accept_with_offline_caller wStateCallerOffline "c1" "ans" wCall (by decide) (by decide)

/-- Claim C4: disconnect cascade for a joined user: the user's
presence entry is removed, every call in which the user is caller or
callee is removed from the table, the emitted messages are exactly the
per-call cleanup notifications in table order followed by the
broadcast of the updated online snapshot, and each removed call whose
surviving peer is still online gets its call_ended exactly once. -/
theorem C4_disconnect_cascade (st : ServerState) (sock : SocketCtx) (uid : String)
    (now : String) (hj : sock.userId = some uid) (hne : uid ≠ "")
    (hnd : (st.calls.map Prod.fst).Nodup) :
    mapGet (handleDisconnect st sock now).1.activeUsers uid = none ∧
    (handleDisconnect st sock now).1.activeUsers = mapDelete st.activeUsers uid ∧
    (handleDisconnect st sock now).1.calls =
      st.calls.filter (fun p => !(isParticipant uid p.2)) ∧
    (handleDisconnect st sock now).2 =
      st.calls.filterMap (disconnectMsgFor (mapDelete st.activeUsers uid) uid) ++
        [broadcastUserList (mapDelete st.activeUsers uid)] ∧
    (∀ callId c, mapGet st.calls callId = some c → isParticipant uid c = true →
      (mapGet (mapDelete st.activeUsers uid) (otherParticipant uid c)).isSome →
      ((handleDisconnect st sock now).2.countP (isCallEndedFor callId)) = 1) := by
  have hmsgs : (handleDisconnect st sock now).2 =
      st.calls.filterMap (disconnectMsgFor (mapDelete st.activeUsers uid) uid) ++
        [broadcastUserList (mapDelete st.activeUsers uid)] := by
    simp [handleDisconnect, hj, hne, disconnectCallsLoop_eq]
  refine ⟨?_, ?_, ?_, hmsgs, ?_⟩
  · simp [handleDisconnect, hj, hne, mapGet_mapDelete_self]
  · simp [handleDisconnect, hj, hne]
  · simp [handleDisconnect, hj, hne, disconnectCallsLoop_eq]
  · intro callId c hg hp ho
    rw [hmsgs, List.countP_append]
    have h1 := countP_disconnectMsgs_one (mapDelete st.activeUsers uid) uid callId c
      st.calls hnd hg hp ho
    have h2 : ([broadcastUserList (mapDelete st.activeUsers uid)]).countP
        (isCallEndedFor callId) = 0 := by
      simp [broadcastUserList, isCallEndedFor]
    rw [h1, h2]

/-- Claim C4 witness: user a disconnects at the sample state; its
entry and its one call disappear and b's call_ended is sent once. -/
theorem C4_witness :
    mapGet (handleDisconnect wState wSockA "t9").1.activeUsers "ua" = none ∧
    (handleDisconnect wState wSockA "t9").1.calls =
      wState.calls.filter (fun p => !(isParticipant "ua" p.2)) ∧
    ((handleDisconnect wState wSockA "t9").2.countP (isCallEndedFor "c1")) = 1 := by
  have h := C4_disconnect_cascade wState wSockA "ua" "t9" rfl (by decide) (by decide)
  exact ⟨h.1, h.2.2.1, h.2.2.2.2 "c1" wCall (by decide) (by decide) (by decide)⟩

/-- Claim C3 counterexample: user u1 joins on socket s1, rejoins on
socket s2 (last-writer-wins: presence migrates to s2), yet processing
the disconnect of the stale socket s1 still removes u1's current
presence entry, so the claimed no-op on the registry is false. -/
theorem C3_counterexample :
    mapGet (handleJoin (handleJoin { users := [], activeUsers := [], calls := [] }
        { sid := "s1", userId := none, username := none }
        { id := "u1", username := "ann" } "t1").1
        { sid := "s2", userId := none, username := none }
        { id := "u1", username := "ann" } "t2").1.activeUsers "u1" =
      some { id := "u1", username := "ann", socketId := "s2", isOnline := true,
             lastSeen := "t2" } ∧
    mapGet (handleDisconnect
        (handleJoin (handleJoin { users := [], activeUsers := [], calls := [] }
          { sid := "s1", userId := none, username := none }
          { id := "u1", username := "ann" } "t1").1
          { sid := "s2", userId := none, username := none }
          { id := "u1", username := "ann" } "t2").1
        (handleJoin { users := [], activeUsers := [], calls := [] }
          { sid := "s1", userId := none, username := none }
          { id := "u1", username := "ann" } "t1").2.1
        "t3").1.activeUsers "u1" = none := by
  decide

/-- Claim C3 amended: disconnect removes the presence entry keyed by
the disconnecting socket's recorded userId regardless of which
connection currently owns that entry — a stale socket that once joined
as u deletes u's current entry; only a socket that never joined (or
joined with an empty id, which JavaScript treats as falsy) leaves the
registry untouched. -/
theorem C3_disconnect_removes_by_user_id (st : ServerState) (sock : SocketCtx)
    (now : String) :
    (sock.userId = none → handleDisconnect st sock now = (st, [])) ∧
    (∀ uid, sock.userId = some uid → uid ≠ "" →
      mapGet (handleDisconnect st sock now).1.activeUsers uid = none) := by
  constructor
  · intro h
    simp [handleDisconnect, h]
  · intro uid hj hne
    simp [handleDisconnect, hj, hne, mapGet_mapDelete_self]

/-- Claim C3 witness: a never-joined socket's disconnect is a no-op
and a joined socket's disconnect removes its user's entry. -/
theorem C3_witness :
    handleDisconnect wState { sid := "sz", userId := none, username := none } "t9" =
      (wState, []) ∧
    mapGet (handleDisconnect wState wSockA "t9").1.activeUsers "ua" = none := by
  have h1 := (C3_disconnect_removes_by_user_id wState
    { sid := "sz", userId := none, username := none } "t9").1 rfl
  have h2 := (C3_disconnect_removes_by_user_id wState wSockA "t9").2 "ua" rfl (by decide)
  exact ⟨h1, h2⟩

/-- Sample connected call from a to b. -/
def wCallConnected : Call := { wCall with status := "connected" }

/-- Sample state with a connected a-to-b call, both users online. -/
def wStateConnected : ServerState :=
  { users := [], activeUsers := [("ua", wActiveA), ("ub", wActiveB)],
    calls := [("c1", wCallConnected)] }

/-- Claim C6 counterexample: a reject_call for a call already in the
connected state is not swallowed: the record is removed and
call_rejected is emitted to the caller, contradicting the claim that
such an event leaves the record alone and emits nothing. -/
theorem C6_counterexample :
    (handleRejectCall wStateConnected "c1").1.calls = [] ∧
    (handleRejectCall wStateConnected "c1").2 =
      [⟨Target.toSocket "sa", OutEvent.callRejected "c1"⟩] := by
  decide

/-- Claim C6 amended: the code has no invalid-transition check: only an
absent callId is swallowed with no state change and no emission. For a
record already in the connected state, accept_call overwrites the
status with connected again and re-emits call_accepted to the caller
when the caller is online, and reject_call removes the record and
notifies the caller when the caller is online. -/
theorem C6_no_invalid_transition_check (st : ServerState) (callId answer : String) (c : Call)
    (hg : mapGet st.calls callId = some c) (_hst : c.status = "connected") :
    ((handleAcceptCall st callId answer).1.calls =
        mapSet st.calls callId { c with status := "connected" } ∧
      (handleAcceptCall st callId answer).2 =
        (match mapGet st.activeUsers c.fromUser.id with
         | some callerUser =>
             [⟨Target.toSocket callerUser.socketId, OutEvent.callAccepted callId answer⟩]
         | none => [])) ∧
    ((handleRejectCall st callId).1.calls = mapDelete st.calls callId ∧
      (handleRejectCall st callId).2 =
        (match mapGet st.activeUsers c.fromUser.id with
         | some callerUser =>
             [⟨Target.toSocket callerUser.socketId, OutEvent.callRejected callId⟩]
         | none => [])) ∧
    (∀ cid2, mapGet st.calls cid2 = none →
      handleAcceptCall st cid2 answer = (st, []) ∧
      handleRejectCall st cid2 = (st, [])) := by
  refine ⟨⟨?_, ?_⟩, ⟨?_, ?_⟩, ?_⟩
  · simp [handleAcceptCall, hg]
  · cases hca : mapGet st.activeUsers c.fromUser.id <;> simp [handleAcceptCall, hg, hca]
  · simp [handleRejectCall, hg]
  · cases hca : mapGet st.activeUsers c.fromUser.id <;> simp [handleRejectCall, hg, hca]
  · intro cid2 h0
    exact ⟨by simp [handleAcceptCall, h0], by simp [handleRejectCall, h0]⟩

/-- Claim C6 witness: the connected sample call is still mutated,
removed and notified about, while an absent callId is swallowed. -/
theorem C6_witness :
    (handleAcceptCall wStateConnected "c1" "ans").1.calls =
      mapSet wStateConnected.calls "c1" { wCallConnected with status := "connected" } ∧
    (handleRejectCall wStateConnected "c1").1.calls = mapDelete wStateConnected.calls "c1" ∧
    handleRejectCall wStateConnected "cX" = (wStateConnected, []) := by
  have h := C6_no_invalid_transition_check wStateConnected "c1" "ans" wCallConnected
    (by decide) (by decide)
  exact ⟨h.1.1, h.2.1.1, (h.2.2 "cX" (by decide)).2⟩

/-- The username scan only returns stored users carrying the searched
username. -/
theorem findUserByUsername_username (users : List (String × StoredUser)) (username : String)
    (u : StoredUser) (h : findUserByUsername users username = some u) :
    u.username = username := by
  induction users with
  | nil => simp [findUserByUsername] at h
  | cons p rest ih =>
      obtain ⟨k, u2⟩ := p
      by_cases hp : u2.username = username
      · simp [findUserByUsername, hp] at h
        rw [← h]
        exact hp
      · simp [findUserByUsername, hp] at h
        exact ih h

/-- Claim C8 counterexample: the login endpoint does not succeed on
every request body: an empty username is answered with the 400 error,
not with a user and token. -/
theorem C8_counterexample :
    handleLogin { users := [], activeUsers := [], calls := [] } "" "secret" "fid" =
      ({ users := [], activeUsers := [], calls := [] },
       LoginResult.err400 "Username and password required") := by
  decide

/-- Claim C8 amended: login performs no credential check beyond
requiring both fields non-empty: every request with a non-empty
username and a non-empty password succeeds with a user carrying that
username and isOnline false and with the user's id as token, and the
outcome does not depend on which non-empty password was sent; an
empty (or missing, which JavaScript treats the same) username or
password is answered with the 400 error. -/
theorem C8_login_no_credential_check (st : ServerState) (username password freshId : String)
    (hu : username ≠ "") (hp : password ≠ "") :
    (∃ user : StoredUser,
      (handleLogin st username password freshId).2 = LoginResult.ok user user.id ∧
      user.username = username ∧ user.isOnline = false) ∧
    (∀ password2, password2 ≠ "" →
      handleLogin st username password2 freshId = handleLogin st username password freshId) ∧
    (∀ username2 password2, username2 = "" ∨ password2 = "" →
      handleLogin st username2 password2 freshId =
        (st, LoginResult.err400 "Username and password required")) := by
  have hcond : ¬ (username = "" ∨ password = "") := by
    intro hc
    rcases hc with h | h
    · exact hu h
    · exact hp h
  refine ⟨?_, ?_, ?_⟩
  · cases hf : findUserByUsername st.users username with
    | some existingUser =>
        refine ⟨{ existingUser with isOnline := false }, ?_, ?_, rfl⟩
        · simp [handleLogin, hcond, hf]
        · simpa using findUserByUsername_username st.users username existingUser hf
    | none =>
        exact ⟨{ id := freshId, username := username, isOnline := false, lastSeen := none },
          by simp [handleLogin, hcond, hf], rfl, rfl⟩
  · intro password2 hp2
    have hcond2 : ¬ (username = "" ∨ password2 = "") := by
      intro hc
      rcases hc with h | h
      · exact hu h
      · exact hp2 h
    cases hf : findUserByUsername st.users username with
    | some existingUser => simp [handleLogin, hcond, hcond2, hf]
    | none => simp [handleLogin, hcond, hcond2, hf]
  · intro username2 password2 hempty
    rcases hempty with h | h <;> simp [handleLogin, h]

/-- Claim C8 witness: a fresh non-empty login succeeds and the password
is irrelevant. -/
theorem C8_witness :
    (∃ user : StoredUser,
      (handleLogin { users := [], activeUsers := [], calls := [] } "dave" "pw" "f1").2 =
        LoginResult.ok user user.id ∧ user.username = "dave" ∧ user.isOnline = false) ∧
    handleLogin { users := [], activeUsers := [], calls := [] } "dave" "pw2" "f1" =
      handleLogin { users := [], activeUsers := [], calls := [] } "dave" "pw" "f1" ∧
    handleLogin { users := [], activeUsers := [], calls := [] } "dave" "" "f1" =
      ({ users := [], activeUsers := [], calls := [] },
       LoginResult.err400 "Username and password required") ∧
    handleLogin { users := [], activeUsers := [], calls := [] } "" "" "f1" =
      ({ users := [], activeUsers := [], calls := [] },
       LoginResult.err400 "Username and password required") := by
  have h := C8_login_no_credential_check { users := [], activeUsers := [], calls := [] }
    "dave" "pw" "f1" (by decide) (by decide)
  exact ⟨h.1, h.2.1 "pw2" (by decide), h.2.2 "dave" "" (Or.inr rfl), h.2.2 "" "" (Or.inl rfl)⟩

end WebRTCSignal
